import Mathlib

/-!
Verification development for the peach-lib shared-state layer: the
configuration store (`config_manager.rs`) and the dynamic-DNS client
(`dyndns_client.rs`), as a shallow embedding.  File-system contents,
subprocess outcomes and remote-call results become explicit parameters,
and external side effects become explicit effect traces, so that each
operation is a pure Lean function mirroring the Rust control flow.
-/

/-- The error type of the library (`error.rs`, `PeachError`), restricted to
the variants the embedded operations can produce. -/
inductive PeachError where
  | readConfigError (file : String)
  | writeConfigError (file : String)
  | yamlError
  | jsonRpcClientCore
  | saveTsigKeyError (path : String)
  | nsCommandError
  | getPublicIpError
  | nsUpdateError (msg : String)
  | saveDynDnsResultError
  | chronoParseError (msg : String)
  | ssbAdminIdNotFound (id : String)
deriving DecidableEq

/-- The configuration document (`config_manager.rs`, `struct PeachConfig`). -/
structure PeachConfig where
  external_domain : String
  dyn_domain : String
  dyn_dns_server_address : String
  dyn_tsig_key_path : String
  dyn_enabled : Bool
  ssb_admin_ids : List String
deriving DecidableEq

/-- The all-defaults document built by `load_peach_config` when no file
exists; also the per-field serde defaults. -/
def defaultPeachConfig : PeachConfig :=
  ⟨"", "", "", "", false, []⟩

/-- A well-formed on-disk YAML document: any subset of the six fields may be
present.  `none` models an absent field. -/
structure PartialPeachConfig where
  external_domain : Option String
  dyn_domain : Option String
  dyn_dns_server_address : Option String
  dyn_tsig_key_path : Option String
  dyn_enabled : Option Bool
  ssb_admin_ids : Option (List String)
deriving DecidableEq

/-- Deserialization of a well-formed document with `#[serde(default)]` on
every field: an absent field takes the serde default for its type
(empty string, `false`, empty vector). -/
def deserializePeachConfig (p : PartialPeachConfig) : PeachConfig :=
  { external_domain := p.external_domain.getD ""
    dyn_domain := p.dyn_domain.getD ""
    dyn_dns_server_address := p.dyn_dns_server_address.getD ""
    dyn_tsig_key_path := p.dyn_tsig_key_path.getD ""
    dyn_enabled := p.dyn_enabled.getD false
    ssb_admin_ids := p.ssb_admin_ids.getD [] }

/-- The states the config file at `YAML_PATH` can be in when
`load_peach_config` runs. -/
inductive ConfigFile where
  | absent
  | unreadable
  | malformed
  | doc (p : PartialPeachConfig)

/-- `config_manager.rs`, `load_peach_config`: if the file does not exist,
return the all-defaults document; otherwise read it (I/O failure is
`ReadConfigError`) and deserialize it (corruption is a serde_yaml error,
variant `YamlError` via the `From` impl). -/
def load_peach_config : ConfigFile → Except PeachError PeachConfig
  | ConfigFile.absent => Except.ok defaultPeachConfig
  | ConfigFile.unreadable =>
      Except.error (PeachError.readConfigError "/var/lib/peachcloud/config.yml")
  | ConfigFile.malformed => Except.error PeachError.yamlError
  | ConfigFile.doc p => Except.ok (deserializePeachConfig p)

/-- The empty on-disk document: every field absent. -/
def emptyPartialConfig : PartialPeachConfig :=
  ⟨none, none, none, none, none, none⟩

/-- `config_manager.rs`, `add_ssb_admin_id`'s in-memory mutation: push one
id onto `ssb_admin_ids`. -/
def addSsbAdminId (id : String) (cfg : PeachConfig) : PeachConfig :=
  { cfg with ssb_admin_ids := cfg.ssb_admin_ids ++ [id] }

/-- State of the two-process interleaving experiment over the shared config
file.  Each process runs one setter (`add_ssb_admin_id`), whose atomic
steps, in the order the source performs them, are:
pc 0: `load_peach_config` (takes no lock) followed by the in-memory field
update; pc 1: `LockFile::open` + `lock()` inside `save_peach_config`
(blocks while another process holds the lock); pc 2: `fs::write` of the
serialized document (lock held); pc 3: `unlock()`; pc 4: done. -/
structure RaceState where
  file : PeachConfig
  lockHolder : Option (Fin 2)
  pc0 : Nat
  pc1 : Nat
  local0 : PeachConfig
  local1 : PeachConfig
deriving DecidableEq

/-- The id process `i` appends. -/
def raceId : Fin 2 → String
  | 0 => "id0"
  | 1 => "id1"

/-- One atomic step of process `i`, following the source's step order
(load without the lock, then lock, write, unlock).  A process whose next
action is to lock while the lock is held is blocked: the step is a no-op. -/
def raceStep (s : RaceState) (i : Fin 2) : RaceState :=
  match (if i = 0 then s.pc0 else s.pc1) with
  | 0 =>
    let l := addSsbAdminId (raceId i) s.file
    if i = 0 then { s with local0 := l, pc0 := 1 }
    else { s with local1 := l, pc1 := 1 }
  | 1 =>
    match s.lockHolder with
    | none =>
      if i = 0 then { s with lockHolder := some i, pc0 := 2 }
      else { s with lockHolder := some i, pc1 := 2 }
    | some _ => s
  | 2 =>
    if i = 0 then { s with file := s.local0, pc0 := 3 }
    else { s with file := s.local1, pc1 := 3 }
  | 3 =>
    if i = 0 then { s with lockHolder := none, pc0 := 4 }
    else { s with lockHolder := none, pc1 := 4 }
  | _ => s

/-- Initial state: empty config on disk, lock free, both processes about to
load. -/
def raceInit : RaceState :=
  ⟨defaultPeachConfig, none, 0, 0, defaultPeachConfig, defaultPeachConfig⟩

/-- Run a schedule (a sequence of process choices). -/
def raceRun (sched : List (Fin 2)) : RaceState :=
  sched.foldl raceStep raceInit

/-- `dyndns_client.rs`, `is_dns_updater_online`: load the config and the
seconds-since-success value (either failure propagates via `?`), then
return `dyn_enabled && ran_recently`, where `ran_recently` is
`seconds < 60 * 6` when the value is `Some seconds` and `false` when it
is `None`. -/
def is_dns_updater_online (loadRes : Except PeachError PeachConfig)
    (secsRes : Except PeachError (Option Int)) : Except PeachError Bool :=
  match loadRes with
  | Except.error e => Except.error e
  | Except.ok cfg =>
    match secsRes with
    | Except.error e => Except.error e
    | Except.ok num_seconds_since_successful_update =>
      let ran_recently : Bool :=
        match num_seconds_since_successful_update with
        | some seconds => decide (seconds < 60 * 6)
        | none => false
      Except.ok (cfg.dyn_enabled && ran_recently)

/-- `dyndns_client.rs` constants. -/
def PEACH_DYNDNS_URL : String := "http://dynserver.dyn.peachcloud.org"

/-- Path the TSIG key is written to. -/
def TSIG_KEY_PATH : String := "/var/lib/peachcloud/peach-dyndns/tsig.key"

/-- The nameserver hard-coded into the nsupdate instruction set
(`dyndns_update_ip`, `NAMESERVER = "ns.peachcloud.org"`). -/
def NAMESERVER : String := "ns.peachcloud.org"

/-- The instruction set `dyndns_update_ip` pipes to nsupdate's stdin,
exactly as built by the `format!` call (`dyndns_client.rs`): server and
zone lines, a delete of the domain's A record, an add with TTL 30 and the
discovered IP, and a send. -/
def ns_commands (dyn_domain public_ip_address : String) : String :=
  "\n        server " ++ NAMESERVER
    ++ "\n        zone " ++ dyn_domain
    ++ "\n        update delete " ++ dyn_domain ++ " A"
    ++ "\n        update add " ++ dyn_domain ++ " 30 A " ++ public_ip_address
    ++ "\n        send"

/-- Externally observable actions of `dyndns_update_ip`. -/
inductive ToolEffect where
  | spawnNsupdate (key_path : String)
  | curlPublicIp
  | writeNsupdateStdin (script : String)
  | logSuccessTimestamp
deriving DecidableEq

/-- Outcome of waiting on the spawned nsupdate process: exit-status success
flag and captured stdout. -/
structure NsUpdateOutput where
  success : Bool
  stdout : String
deriving DecidableEq

/-- `dyndns_client.rs`, `dyndns_update_ip`, with the environment made
explicit: the result of `load_peach_config()`, whether the nsupdate spawn
succeeds, the result of `get_public_ip_address()` (the curl call), the
result of waiting on nsupdate (exit status and stdout), and whether
writing the success-timestamp log succeeds.  Returns the `Result` value
together with the trace of external actions performed.  Control flow
follows the source: if `dyn_enabled` is false, return `Ok(false)` with no
external action; otherwise spawn nsupdate, discover the public IP, pipe
the instruction set to nsupdate's stdin, wait, and on zero exit log the
success timestamp (`log_successful_nsupdate`), on non-zero exit return
`NsUpdateError` carrying nsupdate's stdout. -/
def dyndns_update_ip (loadRes : Except PeachError PeachConfig)
    (spawnOk : Bool) (ipRes : Except PeachError String)
    (waitRes : Except PeachError NsUpdateOutput) (logOk : Bool) :
    Except PeachError Bool × List ToolEffect :=
  match loadRes with
  | Except.error e => (Except.error e, [])
  | Except.ok peach_config =>
    if !peach_config.dyn_enabled then (Except.ok false, [])
    else
      if !spawnOk then
        (Except.error PeachError.nsCommandError,
          [ToolEffect.spawnNsupdate peach_config.dyn_tsig_key_path])
      else
        match ipRes with
        | Except.error e =>
            (Except.error e,
              [ToolEffect.spawnNsupdate peach_config.dyn_tsig_key_path,
               ToolEffect.curlPublicIp])
        | Except.ok public_ip_address =>
          let script := ns_commands peach_config.dyn_domain public_ip_address
          match waitRes with
          | Except.error e =>
              (Except.error e,
                [ToolEffect.spawnNsupdate peach_config.dyn_tsig_key_path,
                 ToolEffect.curlPublicIp,
                 ToolEffect.writeNsupdateStdin script])
          | Except.ok nsupdate_output =>
            if nsupdate_output.success then
              if logOk then
                (Except.ok true,
                  [ToolEffect.spawnNsupdate peach_config.dyn_tsig_key_path,
                   ToolEffect.curlPublicIp,
                   ToolEffect.writeNsupdateStdin script,
                   ToolEffect.logSuccessTimestamp])
              else
                (Except.error PeachError.saveDynDnsResultError,
                  [ToolEffect.spawnNsupdate peach_config.dyn_tsig_key_path,
                   ToolEffect.curlPublicIp,
                   ToolEffect.writeNsupdateStdin script])
            else
              (Except.error (PeachError.nsUpdateError nsupdate_output.stdout),
                [ToolEffect.spawnNsupdate peach_config.dyn_tsig_key_path,
                 ToolEffect.curlPublicIp,
                 ToolEffect.writeNsupdateStdin script])

/-- Substring scan over character lists: does `pat` occur contiguously in
the second argument? -/
def listContainsB (pat : List Char) : List Char → Bool
  | [] => pat.isPrefixOf []
  | c :: rest => pat.isPrefixOf (c :: rest) || listContainsB pat rest

/-- `x` occurs contiguously in `s`. -/
def ContainsOne (s x : String) : Prop :=
  ∃ a b : List Char, s.data = a ++ x.data ++ b

/-- `x` occurs contiguously in `s`, and `y` occurs after it. -/
def ContainsTwoInOrder (s x y : String) : Prop :=
  ∃ a b c : List Char, s.data = a ++ x.data ++ b ++ y.data ++ c

/-- A concrete enabled configuration used for counterexamples and
witnesses: a configured dyndns server address that differs from the
hard-coded nameserver. -/
def cfgFooExample : PeachConfig :=
  ⟨"", "foo.example.org", "203.0.113.53", TSIG_KEY_PATH, true, []⟩

/-- Return type distinguishing a Rust panic (process abort via `unwrap` or
`expect`) from an ordinary typed return. -/
inductive Outcome (α : Type) where
  | ok (v : α)
  | err (e : PeachError)
  | panic
deriving DecidableEq

/-- The states of the staleness log at `DYNDNS_LOG_PATH` when
`get_num_seconds_since_successful_dns_update` runs. -/
inductive LogFile where
  | absent
  | unreadable
  | contents (s : String)

/-- `contents.replace("\n", "")`: remove every newline. -/
def stripNewlines (s : String) : String :=
  String.mk (s.data.filter (fun c => c != '\n'))

/-- `dyndns_client.rs`, `get_num_seconds_since_successful_dns_update`.
The chrono RFC-3339 parser is abstracted as a parameter returning the
parsed timestamp in seconds (or `none` for a malformed record); `now` is
the current UTC time in seconds.  The source: if the log file does not
exist, `Ok(None)`; reading the file goes through
`.expect("Something went wrong reading the file")`, which aborts the
process on an I/O failure (modelled as `Outcome.panic`); a record that
fails to parse is a `ChronoParseError` propagated with `?`; otherwise the
signed duration since the recorded time is returned. -/
def get_num_seconds_since_successful_dns_update (log : LogFile)
    (parse_from_rfc3339 : String → Option Int) (now : Int) :
    Outcome (Option Int) :=
  match log with
  | LogFile.absent => Outcome.ok none
  | LogFile.unreadable => Outcome.panic
  | LogFile.contents contents =>
    match parse_from_rfc3339 (stripNewlines contents) with
    | none =>
        Outcome.err (PeachError.chronoParseError
          "Error parsing dyndns time from latest_result.log")
    | some time_ran_dt => Outcome.ok (some (now - time_ran_dt))

/-- `dyndns_client.rs`, `check_is_new_dyndns_domain`: compares the candidate
against the configured `dyn_domain`.  The config is loaded with
`load_peach_config().unwrap()`, which aborts the process when the load
fails (modelled as `Outcome.panic`). -/
def check_is_new_dyndns_domain (loadRes : Except PeachError PeachConfig)
    (dyndns_full_domain : String) : Outcome Bool :=
  match loadRes with
  | Except.ok peach_config =>
      Outcome.ok (dyndns_full_domain != peach_config.dyn_domain)
  | Except.error _ => Outcome.panic

/-- `config_manager.rs`, `set_peach_dyndns_config`'s in-memory mutation of
the loaded document. -/
def setPeachDyndnsFields (cfg : PeachConfig)
    (dyn_domain dyn_dns_server_address dyn_tsig_key_path : String)
    (dyn_enabled : Bool) : PeachConfig :=
  { cfg with
    dyn_domain := dyn_domain
    dyn_dns_server_address := dyn_dns_server_address
    dyn_tsig_key_path := dyn_tsig_key_path
    dyn_enabled := dyn_enabled }

/-- Persistence actions `register_domain` can perform, in order: writing
the TSIG key file, then saving the new configuration document. -/
inductive RegEffect where
  | saveKey (key : String)
  | saveConfig (cfg : PeachConfig)
deriving DecidableEq

/-- `dyndns_client.rs`, `register_domain`, with the environment explicit:
`rpcRes` is the remote `register_domain` call's result (`some key` on
success), `keySaveOk` whether `save_dyndns_key` (directory creation, file
open, key write) succeeds, `loadRes` the `load_peach_config()` result
inside `set_peach_dyndns_config`, and `saveOk` whether
`save_peach_config`'s write succeeds.  Effects record completed
persistence steps.  Control flow follows the source: on RPC success the
key is saved first; only then is `set_peach_dyndns_config(domain,
PEACH_DYNDNS_URL, TSIG_KEY_PATH, true)` run; any failure is returned as
an error. -/
def register_domain (domain : String) (rpcRes : Option String)
    (keySaveOk : Bool) (loadRes : Except PeachError PeachConfig)
    (saveOk : Bool) : Except PeachError String × List RegEffect :=
  match rpcRes with
  | none => (Except.error PeachError.jsonRpcClientCore, [])
  | some key =>
    if !keySaveOk then
      (Except.error (PeachError.saveTsigKeyError TSIG_KEY_PATH), [])
    else
      match loadRes with
      | Except.error e => (Except.error e, [RegEffect.saveKey key])
      | Except.ok peach_config =>
        let newCfg :=
          setPeachDyndnsFields peach_config domain PEACH_DYNDNS_URL
            TSIG_KEY_PATH true
        if saveOk then
          (Except.ok "success",
            [RegEffect.saveKey key, RegEffect.saveConfig newCfg])
        else
          (Except.error
              (PeachError.writeConfigError "/var/lib/peachcloud/config.yml"),
            [RegEffect.saveKey key])

/-- `dyndns_client.rs`, `get_full_dynamic_domain`. -/
def get_full_dynamic_domain (subdomain : String) : String :=
  subdomain ++ ".dyn.peachcloud.org"

/-- The literal part of the regex `(.*)\.dyn\.peachcloud\.org`. -/
def dynSuffix : List Char := ".dyn.peachcloud.org".data

/-- Positions at which `dynSuffix` occurs in `s`. -/
def suffixOccurrences (s : List Char) : List Nat :=
  (List.range (s.length + 1)).filter (fun q => dynSuffix.isPrefixOf (s.drop q))

/-- Start of the maximal newline-free block ending at position `q`.  The
regex-crate `.` does not match a newline, so a match whose literal part
starts at `q` can begin no earlier than this position. -/
def blockStart (s : List Char) (q : Nat) : Nat :=
  q - ((s.take q).reverse.takeWhile (fun c => c != '\n')).length

/-- The leftmost feasible match start: the smallest `blockStart` over the
occurrences of the literal (regex matching is leftmost-first). -/
def matchStart (s : List Char) (q0 : Nat) (rest : List Nat) : Nat :=
  (rest.map (blockStart s)).foldl min (blockStart s q0)

/-- The greedy end of capture group 1: the furthest occurrence of the
literal reachable from the match start without crossing a newline. -/
def matchEnd (s : List Char) (q0 : Nat) (rest : List Nat) : Nat :=
  ((q0 :: rest).filter
    (fun q => decide (blockStart s q ≤ matchStart s q0 rest))).foldl max 0

/-- Capture group 1: the characters between the match start and the start
of the chosen occurrence of the literal. -/
def subdomainSlice (s : List Char) (q0 : Nat) (rest : List Nat) : List Char :=
  (s.drop (matchStart s q0 rest)).take
    (matchEnd s q0 rest - matchStart s q0 rest)

/-- `dyndns_client.rs`, `get_dyndns_subdomain`: run the unanchored regex
`(.*)\.dyn\.peachcloud\.org` against the input and return capture
group 1, or `None` when the regex does not match (no occurrence of the
literal `.dyn.peachcloud.org` at all). -/
def get_dyndns_subdomain (dyndns_full_domain : String) : Option String :=
  match suffixOccurrences dyndns_full_domain.data with
  | [] => none
  | q0 :: rest =>
      some (String.mk (subdomainSlice dyndns_full_domain.data q0 rest))

/-! ## Theorems -/

theorem isPrefixOf_iff_exists : ∀ (p s : List Char),
    p.isPrefixOf s = true ↔ ∃ t, s = p ++ t
  | [], s => by simp [List.isPrefixOf]
  | a :: p, [] => by simp [List.isPrefixOf]
  | a :: p, b :: s => by
    simp only [List.isPrefixOf, Bool.and_eq_true, beq_iff_eq,
      isPrefixOf_iff_exists p s, List.cons_append, List.cons.injEq]
    constructor
    · rintro ⟨rfl, t, rfl⟩
      exact ⟨t, rfl, rfl⟩
    · rintro ⟨t, rfl, rfl⟩
      exact ⟨rfl, t, rfl⟩

theorem listContainsB_iff : ∀ (p s : List Char),
    listContainsB p s = true ↔ ∃ a b, s = a ++ p ++ b
  | p, [] => by
    rw [listContainsB, isPrefixOf_iff_exists]
    constructor
    · rintro ⟨t, ht⟩
      exact ⟨[], t, by simpa using ht⟩
    · rintro ⟨a, b, hab⟩
      have h1 := List.append_eq_nil.mp hab.symm
      have h2 := List.append_eq_nil.mp h1.1
      exact ⟨[], by simp [h2.2]⟩
  | p, c :: s => by
    rw [listContainsB, Bool.or_eq_true, isPrefixOf_iff_exists,
      listContainsB_iff p s]
    constructor
    · rintro (⟨t, ht⟩ | ⟨a, b, hab⟩)
      · exact ⟨[], t, by simpa using ht⟩
      · exact ⟨c :: a, b, by simp [hab]⟩
    · rintro ⟨a, b, hab⟩
      cases a with
      | nil => exact Or.inl ⟨b, by simpa using hab⟩
      | cons x a2 =>
        simp only [List.cons_append, List.cons.injEq] at hab
        exact Or.inr ⟨a2, b, hab.2⟩

/-- C1: for every on-disk document containing any subset of the fields,
`load_peach_config` succeeds and every absent field of the returned
document equals its documented default (empty string, false, or empty
list); and when no configuration file exists at all, it returns the
all-defaults document without error. -/
theorem C1_load_defaults (p : PartialPeachConfig) :
    (∃ cfg, load_peach_config (ConfigFile.doc p) = Except.ok cfg
      ∧ (p.external_domain = none → cfg.external_domain = "")
      ∧ (p.dyn_domain = none → cfg.dyn_domain = "")
      ∧ (p.dyn_dns_server_address = none → cfg.dyn_dns_server_address = "")
      ∧ (p.dyn_tsig_key_path = none → cfg.dyn_tsig_key_path = "")
      ∧ (p.dyn_enabled = none → cfg.dyn_enabled = false)
      ∧ (p.ssb_admin_ids = none → cfg.ssb_admin_ids = []))
    ∧ load_peach_config ConfigFile.absent = Except.ok defaultPeachConfig := by
  refine ⟨⟨deserializePeachConfig p, rfl, ?_, ?_, ?_, ?_, ?_, ?_⟩, rfl⟩ <;>
    intro h <;> simp [deserializePeachConfig, h]

/-- Witness for C1 at the concrete all-absent document. -/
theorem C1_load_defaults_witness :
    ∃ cfg, load_peach_config (ConfigFile.doc emptyPartialConfig) = Except.ok cfg
      ∧ cfg.external_domain = "" ∧ cfg.dyn_domain = ""
      ∧ cfg.dyn_dns_server_address = "" ∧ cfg.dyn_tsig_key_path = ""
      ∧ cfg.dyn_enabled = false ∧ cfg.ssb_admin_ids = [] := by
  obtain ⟨⟨cfg, hload, h1, h2, h3, h4, h5, h6⟩, _⟩ :=
    C1_load_defaults emptyPartialConfig
  exact ⟨cfg, hload, h1 rfl, h2 rfl, h3 rfl, h4 rfl, h5 rfl, h6 rfl⟩

/-- C2 counterexample: it is not true that every schedule under which both
`add_ssb_admin_id` mutations run to completion leaves both ids in the
file.  The schedule P0-load, P1-load, P0-lock/write/unlock,
P1-lock/write/unlock completes both processes yet leaves one admin id:
each setter loads the document before the lock is acquired, so P1
overwrites P0's update. -/
theorem C2_race_counterexample :
    ¬ (∀ sched : List (Fin 2),
        (raceRun sched).pc0 = 4 → (raceRun sched).pc1 = 4 →
        (raceRun sched).file.ssb_admin_ids.length = 2) := by
  intro h
  have h2 := h [0, 1, 0, 0, 0, 1, 1, 1] (by decide) (by decide)
  exact absurd h2 (by decide)

/-- C2 amended: the setters load the document before acquiring the lock
(only the serialize-and-write inside `save_peach_config` runs under it),
so concurrent mutations are not atomic: there is a schedule in which two
concurrent `add_ssb_admin_id` calls both run to completion but the final
document holds a single admin id (a lost update). -/
theorem C2_lost_update_exists :
    ∃ sched : List (Fin 2),
      (raceRun sched).pc0 = 4 ∧ (raceRun sched).pc1 = 4 ∧
      (raceRun sched).file.ssb_admin_ids.length = 1 :=
  ⟨[0, 1, 0, 0, 0, 1, 1, 1], by decide, by decide, by decide⟩

/-- C4: `is_dns_updater_online` returns true iff `dyn_enabled` is true and
the seconds-since-success value is `Some d` with `d < 360`; it returns
false whenever `dyn_enabled` is false regardless of the recorded value,
and false whenever the value is `None`. -/
theorem C4_is_online_iff (cfg : PeachConfig) (secs : Option Int) :
    (is_dns_updater_online (Except.ok cfg) (Except.ok secs) = Except.ok true
      ↔ cfg.dyn_enabled = true ∧ ∃ d, secs = some d ∧ d < 360)
    ∧ (cfg.dyn_enabled = false →
        is_dns_updater_online (Except.ok cfg) (Except.ok secs) = Except.ok false)
    ∧ (secs = none →
        is_dns_updater_online (Except.ok cfg) (Except.ok secs) = Except.ok false) := by
  refine ⟨?_, ?_, ?_⟩
  · cases secs with
    | none => simp [is_dns_updater_online]
    | some d => simp [is_dns_updater_online]
  · intro h
    cases secs with
    | none => simp [is_dns_updater_online, h]
    | some d => simp [is_dns_updater_online, h]
  · intro h
    subst h
    simp [is_dns_updater_online]

/-- Witness for C4: with dyndns disabled and no recorded success, the
online check reports false. -/
theorem C4_is_online_iff_witness :
    is_dns_updater_online (Except.ok defaultPeachConfig) (Except.ok none)
      = Except.ok false :=
  (C4_is_online_iff defaultPeachConfig none).2.1 rfl

/-- C5: when the loaded configuration has `dyn_enabled` false,
`dyndns_update_ip` returns `Ok(false)` (the non-error "no update
performed" outcome) and performs no external action: neither the curl
public-IP discovery nor the nsupdate tool is launched. -/
theorem C5_disabled_no_tool (cfg : PeachConfig) (spawnOk : Bool)
    (ipRes : Except PeachError String)
    (waitRes : Except PeachError NsUpdateOutput) (logOk : Bool)
    (hdis : cfg.dyn_enabled = false) :
    dyndns_update_ip (Except.ok cfg) spawnOk ipRes waitRes logOk
      = (Except.ok false, []) := by
  simp [dyndns_update_ip, hdis]

/-- Witness for C5 at the all-defaults (disabled) configuration. -/
theorem C5_disabled_no_tool_witness :
    dyndns_update_ip (Except.ok defaultPeachConfig) true
        (Except.ok "203.0.113.9") (Except.ok ⟨true, ""⟩) true
      = (Except.ok false, []) :=
  C5_disabled_no_tool defaultPeachConfig true (Except.ok "203.0.113.9")
    (Except.ok ⟨true, ""⟩) true rfl

/-- C3 (evidence for the code bug): reading the last-success record is
graceful only for the absent-file case.  The absent record yields
`Ok(None)`; but a malformed timestamp yields a `ChronoParseError` rather
than `None`, and an unreadable file aborts the process through
`.expect(...)`. -/
theorem C3_staleness_evidence :
    get_num_seconds_since_successful_dns_update LogFile.absent
        (fun _ => none) 0 = Outcome.ok none
    ∧ get_num_seconds_since_successful_dns_update (LogFile.contents "notatime")
        (fun _ => none) 0
      = Outcome.err (PeachError.chronoParseError
          "Error parsing dyndns time from latest_result.log")
    ∧ get_num_seconds_since_successful_dns_update LogFile.unreadable
        (fun _ => none) 0 = Outcome.panic :=
  ⟨rfl, rfl, rfl⟩

/-- C6 counterexample: the instruction script actually piped to nsupdate by
`dyndns_update_ip` is NOT addressed to the configured DNS server.  With
`dyn_dns_server_address = "203.0.113.53"` the script contains no
occurrence of "server 203.0.113.53": the server line is hard-coded to
`ns.peachcloud.org`. -/
theorem C6_counterexample :
    ToolEffect.writeNsupdateStdin (ns_commands "foo.example.org" "203.0.113.9")
        ∈ (dyndns_update_ip (Except.ok cfgFooExample) true
            (Except.ok "203.0.113.9") (Except.ok ⟨true, ""⟩) true).2
    ∧ ¬ ContainsOne (ns_commands "foo.example.org" "203.0.113.9")
        ("server " ++ cfgFooExample.dyn_dns_server_address) := by
  constructor
  · simp [dyndns_update_ip, cfgFooExample, ns_commands]
  · rintro ⟨a, b, hab⟩
    have hb : listContainsB
        ("server " ++ cfgFooExample.dyn_dns_server_address).data
        (ns_commands "foo.example.org" "203.0.113.9").data = true :=
      (listContainsB_iff _ _).mpr ⟨a, b, hab⟩
    exact absurd hb (by decide)

/-- C6 amended: the script `dyndns_update_ip` pipes to nsupdate is
addressed to the hard-coded nameserver `ns.peachcloud.org` and to the
zone equal to the configured domain (not to the configured
`dyn_dns_server_address`), and contains, in order, a delete of the
configured domain's A record followed by an add of that domain with TTL
30 and the discovered IP. -/
theorem C6_script_delete_then_add (cfg : PeachConfig) (ip : String)
    (waitRes : Except PeachError NsUpdateOutput) (logOk : Bool)
    (hen : cfg.dyn_enabled = true) :
    ToolEffect.writeNsupdateStdin (ns_commands cfg.dyn_domain ip)
        ∈ (dyndns_update_ip (Except.ok cfg) true (Except.ok ip) waitRes logOk).2
    ∧ ContainsOne (ns_commands cfg.dyn_domain ip) "server ns.peachcloud.org"
    ∧ ContainsOne (ns_commands cfg.dyn_domain ip) ("zone " ++ cfg.dyn_domain)
    ∧ ContainsTwoInOrder (ns_commands cfg.dyn_domain ip)
        ("update delete " ++ cfg.dyn_domain ++ " A")
        ("update add " ++ cfg.dyn_domain ++ " 30 A " ++ ip) := by
  refine ⟨?_, ?_, ?_, ?_⟩
  · cases waitRes with
    | error e => simp [dyndns_update_ip, hen]
    | ok o =>
      cases ho : o.success <;> cases logOk <;>
        simp [dyndns_update_ip, hen, ho]
  · refine ⟨("\n        " : String).data,
      (("\n        zone " ++ cfg.dyn_domain ++ "\n        update delete "
        ++ cfg.dyn_domain ++ " A" ++ "\n        update add " ++ cfg.dyn_domain
        ++ " 30 A " ++ ip ++ "\n        send" : String)).data, ?_⟩
    simp only [ns_commands, NAMESERVER, String.data_append,
      List.append_assoc, List.cons_append, List.nil_append]
  · refine ⟨(("\n        server " ++ NAMESERVER ++ "\n        " : String)).data,
      (("\n        update delete " ++ cfg.dyn_domain ++ " A"
        ++ "\n        update add " ++ cfg.dyn_domain ++ " 30 A " ++ ip
        ++ "\n        send" : String)).data, ?_⟩
    simp only [ns_commands, NAMESERVER, String.data_append,
      List.append_assoc, List.cons_append, List.nil_append]
  · refine ⟨(("\n        server " ++ NAMESERVER ++ "\n        zone "
        ++ cfg.dyn_domain ++ "\n        " : String)).data,
      ("\n        " : String).data, ("\n        send" : String).data, ?_⟩
    simp only [ns_commands, NAMESERVER, String.data_append,
      List.append_assoc, List.cons_append, List.nil_append]

/-- Witness for C6 amended at a concrete enabled configuration, domain and
discovered IP. -/
theorem C6_script_delete_then_add_witness :
    ToolEffect.writeNsupdateStdin (ns_commands "foo.example.org" "203.0.113.9")
        ∈ (dyndns_update_ip (Except.ok cfgFooExample) true
            (Except.ok "203.0.113.9") (Except.ok ⟨true, ""⟩) true).2
    ∧ ContainsTwoInOrder (ns_commands "foo.example.org" "203.0.113.9")
        ("update delete " ++ "foo.example.org" ++ " A")
        ("update add " ++ "foo.example.org" ++ " 30 A " ++ "203.0.113.9") := by
  have h := C6_script_delete_then_add cfgFooExample "203.0.113.9"
    (Except.ok ⟨true, ""⟩) true rfl
  exact ⟨h.1, h.2.2.2⟩

/-- C7: on a non-zero nsupdate exit, `dyndns_update_ip` returns
`NsUpdateError` carrying the tool's stdout, and the success timestamp is
not recorded; in general the success-timestamp write happens only when
the tool exits successfully (and the log write itself succeeds). -/
theorem C7_nonzero_exit (cfg : PeachConfig) (ip out : String) (logOk : Bool)
    (hen : cfg.dyn_enabled = true) :
    (dyndns_update_ip (Except.ok cfg) true (Except.ok ip)
        (Except.ok ⟨false, out⟩) logOk).1
      = Except.error (PeachError.nsUpdateError out)
    ∧ ToolEffect.logSuccessTimestamp ∉
        (dyndns_update_ip (Except.ok cfg) true (Except.ok ip)
            (Except.ok ⟨false, out⟩) logOk).2
    ∧ ∀ (loadRes : Except PeachError PeachConfig) (spawnOk : Bool)
        (ipRes : Except PeachError String)
        (waitRes : Except PeachError NsUpdateOutput) (logOk2 : Bool),
        ToolEffect.logSuccessTimestamp ∈
            (dyndns_update_ip loadRes spawnOk ipRes waitRes logOk2).2 →
          ∃ o : NsUpdateOutput, waitRes = Except.ok o ∧ o.success = true
            ∧ logOk2 = true := by
  refine ⟨by simp [dyndns_update_ip, hen], by simp [dyndns_update_ip, hen], ?_⟩
  intro loadRes spawnOk ipRes waitRes logOk2 hmem
  cases loadRes with
  | error e => simp [dyndns_update_ip] at hmem
  | ok c =>
    cases hce : c.dyn_enabled with
    | false => simp [dyndns_update_ip, hce] at hmem
    | true =>
      cases spawnOk with
      | false => simp [dyndns_update_ip, hce] at hmem
      | true =>
        cases ipRes with
        | error e => simp [dyndns_update_ip, hce] at hmem
        | ok ipv =>
          cases waitRes with
          | error e => simp [dyndns_update_ip, hce] at hmem
          | ok o =>
            cases ho : o.success with
            | false => simp [dyndns_update_ip, hce, ho] at hmem
            | true =>
              cases logOk2 with
              | false => simp [dyndns_update_ip, hce, ho] at hmem
              | true => exact ⟨o, rfl, ho, rfl⟩

/-- Witness for C7: nsupdate exits non-zero with stdout "REFUSED"; the
returned error carries "REFUSED" and no timestamp is written. -/
theorem C7_nonzero_exit_witness :
    (dyndns_update_ip (Except.ok cfgFooExample) true (Except.ok "203.0.113.9")
        (Except.ok ⟨false, "REFUSED"⟩) true).1
      = Except.error (PeachError.nsUpdateError "REFUSED")
    ∧ ToolEffect.logSuccessTimestamp ∉
        (dyndns_update_ip (Except.ok cfgFooExample) true
            (Except.ok "203.0.113.9") (Except.ok ⟨false, "REFUSED"⟩) true).2 := by
  have h := C7_nonzero_exit cfgFooExample "203.0.113.9" "REFUSED" true rfl
  exact ⟨h.1, h.2.1⟩

/-- C8: a successful `register_domain` implies the remote call returned a
key, the key file was written, the config load and save both succeeded,
and the persistence trace is exactly the key write followed by the config
save with `dyn_domain` set to the candidate, the dyndns server URL, the
key path, and `dyn_enabled` true; conversely a failed key write or a
failed config save yields an error result. -/
theorem C8_register_persists (domain : String) (rpcRes : Option String)
    (keySaveOk : Bool) (loadRes : Except PeachError PeachConfig)
    (saveOk : Bool) :
    (∀ r, (register_domain domain rpcRes keySaveOk loadRes saveOk).1
        = Except.ok r →
      ∃ key cfg, rpcRes = some key ∧ keySaveOk = true ∧ saveOk = true
        ∧ loadRes = Except.ok cfg
        ∧ (register_domain domain rpcRes keySaveOk loadRes saveOk).2
            = [RegEffect.saveKey key,
               RegEffect.saveConfig (setPeachDyndnsFields cfg domain
                 PEACH_DYNDNS_URL TSIG_KEY_PATH true)]
        ∧ (setPeachDyndnsFields cfg domain PEACH_DYNDNS_URL TSIG_KEY_PATH
            true).dyn_domain = domain
        ∧ (setPeachDyndnsFields cfg domain PEACH_DYNDNS_URL TSIG_KEY_PATH
            true).dyn_dns_server_address = PEACH_DYNDNS_URL
        ∧ (setPeachDyndnsFields cfg domain PEACH_DYNDNS_URL TSIG_KEY_PATH
            true).dyn_tsig_key_path = TSIG_KEY_PATH
        ∧ (setPeachDyndnsFields cfg domain PEACH_DYNDNS_URL TSIG_KEY_PATH
            true).dyn_enabled = true)
    ∧ (keySaveOk = false →
        ∃ e, (register_domain domain rpcRes keySaveOk loadRes saveOk).1
          = Except.error e)
    ∧ (saveOk = false →
        ∃ e, (register_domain domain rpcRes keySaveOk loadRes saveOk).1
          = Except.error e) := by
  refine ⟨?_, ?_, ?_⟩
  · intro r hr
    cases rpcRes with
    | none => simp [register_domain] at hr
    | some key =>
      cases keySaveOk with
      | false => simp [register_domain] at hr
      | true =>
        cases loadRes with
        | error e => simp [register_domain] at hr
        | ok cfg =>
          cases saveOk with
          | false => simp [register_domain] at hr
          | true =>
            exact ⟨key, cfg, rfl, rfl, rfl, rfl, by simp [register_domain],
              rfl, rfl, rfl, rfl⟩
  · intro hk
    subst hk
    cases rpcRes with
    | none => exact ⟨PeachError.jsonRpcClientCore, by simp [register_domain]⟩
    | some key =>
        exact ⟨PeachError.saveTsigKeyError TSIG_KEY_PATH,
          by simp [register_domain]⟩
  · intro hs
    subst hs
    cases rpcRes with
    | none => exact ⟨PeachError.jsonRpcClientCore, by simp [register_domain]⟩
    | some key =>
      cases keySaveOk with
      | false =>
          exact ⟨PeachError.saveTsigKeyError TSIG_KEY_PATH,
            by simp [register_domain]⟩
      | true =>
        cases loadRes with
        | error e => exact ⟨e, by simp [register_domain]⟩
        | ok cfg =>
            exact ⟨PeachError.writeConfigError "/var/lib/peachcloud/config.yml",
              by simp [register_domain]⟩

/-- Witness for C8 at a concrete successful registration. -/
theorem C8_register_persists_witness :
    ∃ key cfg, (some "abc123" : Option String) = some key
      ∧ true = true ∧ true = true
      ∧ (Except.ok defaultPeachConfig : Except PeachError PeachConfig)
          = Except.ok cfg
      ∧ (register_domain "peach.dyn.peachcloud.org" (some "abc123") true
          (Except.ok defaultPeachConfig) true).2
          = [RegEffect.saveKey key,
             RegEffect.saveConfig (setPeachDyndnsFields cfg
               "peach.dyn.peachcloud.org" PEACH_DYNDNS_URL TSIG_KEY_PATH true)]
      ∧ (setPeachDyndnsFields cfg "peach.dyn.peachcloud.org" PEACH_DYNDNS_URL
          TSIG_KEY_PATH true).dyn_domain = "peach.dyn.peachcloud.org"
      ∧ (setPeachDyndnsFields cfg "peach.dyn.peachcloud.org" PEACH_DYNDNS_URL
          TSIG_KEY_PATH true).dyn_dns_server_address = PEACH_DYNDNS_URL
      ∧ (setPeachDyndnsFields cfg "peach.dyn.peachcloud.org" PEACH_DYNDNS_URL
          TSIG_KEY_PATH true).dyn_tsig_key_path = TSIG_KEY_PATH
      ∧ (setPeachDyndnsFields cfg "peach.dyn.peachcloud.org" PEACH_DYNDNS_URL
          TSIG_KEY_PATH true).dyn_enabled = true :=
  (C8_register_persists "peach.dyn.peachcloud.org" (some "abc123") true
    (Except.ok defaultPeachConfig) true).1 "success" rfl

/-- C9 (evidence for the code bug): on a recoverable config-read failure,
`check_is_new_dyndns_domain` panics (`load_peach_config().unwrap()`)
instead of returning a typed error, and
`get_num_seconds_since_successful_dns_update` panics on an unreadable
log file (`.expect(...)`). -/
theorem C9_panic_evidence :
    check_is_new_dyndns_domain (Except.error PeachError.yamlError)
        "foo.dyn.peachcloud.org" = Outcome.panic
    ∧ get_num_seconds_since_successful_dns_update LogFile.unreadable
        (fun _ => some 0) 0 = Outcome.panic :=
  ⟨rfl, rfl⟩

theorem takeWhile_eq_self_of_all : ∀ (l : List Char),
    (∀ c ∈ l, c ≠ '\n') → l.takeWhile (fun c => c != '\n') = l
  | [], _ => rfl
  | c :: l, h => by
    have hc : (c != '\n') = true := by
      simpa using h c (List.mem_cons_self c l)
    simp only [List.takeWhile_cons, hc, if_true]
    simp [takeWhile_eq_self_of_all l
      (fun x hx => h x (List.mem_cons_of_mem _ hx))]

theorem blockStart_eq_zero (s : List Char) (q : Nat)
    (hnl : ∀ c ∈ s, c ≠ '\n') (hq : q ≤ s.length) : blockStart s q = 0 := by
  unfold blockStart
  have hall : ∀ c ∈ (s.take q).reverse, c ≠ '\n' := by
    intro c hc
    exact hnl c (List.take_subset q s (List.mem_reverse.mp hc))
  rw [takeWhile_eq_self_of_all _ hall, List.length_reverse, List.length_take,
    Nat.min_eq_left hq, Nat.sub_self]

theorem foldl_min_zeros : ∀ (l : List Nat), (∀ x ∈ l, x = 0) →
    l.foldl min 0 = 0
  | [], _ => rfl
  | x :: l, h => by
    have hx := h x (List.mem_cons_self x l)
    subst hx
    rw [List.foldl_cons]
    simpa using foldl_min_zeros l (fun y hy => h y (List.mem_cons_of_mem _ hy))

theorem init_le_foldl_max : ∀ (l : List Nat) (a : Nat), a ≤ l.foldl max a
  | [], a => le_refl a
  | y :: l, a => le_trans (Nat.le_max_left a y) (init_le_foldl_max l (max a y))

theorem le_foldl_max : ∀ (l : List Nat) (a x : Nat), x ∈ l → x ≤ l.foldl max a
  | y :: l, a, x, hx => by
    rcases List.mem_cons.mp hx with rfl | hmem
    · exact le_trans (Nat.le_max_right a x) (init_le_foldl_max l (max a x))
    · exact le_foldl_max l (max a y) x hmem

theorem foldl_max_le : ∀ (l : List Nat) (a M : Nat), a ≤ M →
    (∀ x ∈ l, x ≤ M) → l.foldl max a ≤ M
  | [], a, M, ha, _ => ha
  | y :: l, a, M, ha, h => by
    refine foldl_max_le l (max a y) M ?_
      (fun x hx => h x (List.mem_cons_of_mem _ hx))
    exact max_le ha (h y (List.mem_cons_self y l))

theorem mem_suffixOccurrences_iff (s : List Char) (q : Nat) :
    q ∈ suffixOccurrences s
      ↔ q < s.length + 1 ∧ dynSuffix.isPrefixOf (s.drop q) = true := by
  unfold suffixOccurrences
  simp [List.mem_filter, List.mem_range]

theorem suffixOccurrences_le (u : List Char) (q : Nat)
    (hq : q ∈ suffixOccurrences u) : q + dynSuffix.length ≤ u.length := by
  obtain ⟨hrange, hpre⟩ := (mem_suffixOccurrences_iff u q).mp hq
  obtain ⟨t, ht⟩ := (isPrefixOf_iff_exists _ _).mp hpre
  have hlen := congrArg List.length ht
  rw [List.length_drop, List.length_append] at hlen
  omega

theorem self_mem_suffixOccurrences (sd : List Char) :
    sd.length ∈ suffixOccurrences (sd ++ dynSuffix) := by
  rw [mem_suffixOccurrences_iff]
  constructor
  · rw [List.length_append]
    omega
  · rw [List.drop_left]
    exact (isPrefixOf_iff_exists _ _).mpr ⟨[], by simp⟩

theorem roundtrip_core (sd : List Char) (hnl : ∀ c ∈ sd, c ≠ '\n')
    (q0 : Nat) (rest : List Nat)
    (hocc : suffixOccurrences (sd ++ dynSuffix) = q0 :: rest) :
    subdomainSlice (sd ++ dynSuffix) q0 rest = sd := by
  set u := sd ++ dynSuffix with hu
  have hnlu : ∀ c ∈ u, c ≠ '\n' := by
    intro c hc
    rcases List.mem_append.mp hc with h | h
    · exact hnl c h
    · intro hEq
      subst hEq
      revert h
      decide
  have hocc_mem : ∀ q ∈ suffixOccurrences u, q ≤ u.length ∧ blockStart u q = 0 := by
    intro q hq
    have h1 := suffixOccurrences_le u q hq
    have h2 : q ≤ u.length := by omega
    exact ⟨h2, blockStart_eq_zero u q hnlu h2⟩
  have hq0 : q0 ∈ suffixOccurrences u := by
    rw [hocc]
    exact List.mem_cons_self _ _
  have hms : matchStart u q0 rest = 0 := by
    unfold matchStart
    rw [(hocc_mem q0 hq0).2]
    apply foldl_min_zeros
    intro x hx
    obtain ⟨q, hqmem, rfl⟩ := List.mem_map.mp hx
    refine (hocc_mem q ?_).2
    rw [hocc]
    exact List.mem_cons_of_mem _ hqmem
  have hfilter : (q0 :: rest).filter
      (fun q => decide (blockStart u q ≤ matchStart u q0 rest)) = q0 :: rest := by
    apply List.filter_eq_self.mpr
    intro q hq
    have hmem : q ∈ suffixOccurrences u := by
      rw [hocc]
      exact hq
    simp [hms, (hocc_mem q hmem).2]
  have hub : ∀ q ∈ q0 :: rest, q ≤ sd.length := by
    intro q hq
    have hmem : q ∈ suffixOccurrences u := by
      rw [hocc]
      exact hq
    have hle := suffixOccurrences_le u q hmem
    rw [hu, List.length_append] at hle
    omega
  have hself : sd.length ∈ q0 :: rest := by
    rw [← hocc]
    exact self_mem_suffixOccurrences sd
  have hme : matchEnd u q0 rest = sd.length := by
    unfold matchEnd
    rw [hfilter]
    exact le_antisymm (foldl_max_le _ 0 sd.length (Nat.zero_le _) hub)
      (le_foldl_max _ 0 sd.length hself)
  unfold subdomainSlice
  rw [hms, hme, List.drop_zero, Nat.sub_zero, hu]
  exact List.take_left sd dynSuffix

/-- C10 counterexample: `get_dyndns_subdomain` does not return `None` on
every input lacking the `.dyn.peachcloud.org` suffix: the regex is
unanchored, so "a.dyn.peachcloud.orgX" — which does not end in the
suffix — still matches and yields `Some "a"`. -/
theorem C10_counterexample :
    get_dyndns_subdomain "a.dyn.peachcloud.orgX" = some "a"
    ∧ ("a.dyn.peachcloud.orgX" : String).data.drop
        (("a.dyn.peachcloud.orgX" : String).data.length - dynSuffix.length)
      ≠ dynSuffix := by
  constructor
  · decide
  · decide

/-- C10 amended: for every subdomain `s` without a newline,
`get_dyndns_subdomain (get_full_dynamic_domain s) = Some s`; and
`get_dyndns_subdomain` returns `None` exactly for the inputs that contain
no occurrence of ".dyn.peachcloud.org" at all (rather than: that do not
end with it). -/
theorem C10_roundtrip_amended :
    (∀ s : String, (∀ c ∈ s.data, c ≠ '\n') →
      get_dyndns_subdomain (get_full_dynamic_domain s) = some s)
    ∧ (∀ t : String, ¬ ContainsOne t ".dyn.peachcloud.org" →
      get_dyndns_subdomain t = none) := by
  constructor
  · intro s hnl
    have hdata : (get_full_dynamic_domain s).data = s.data ++ dynSuffix := by
      rw [get_full_dynamic_domain, String.data_append]
      rfl
    unfold get_dyndns_subdomain
    rw [hdata]
    cases hocc : suffixOccurrences (s.data ++ dynSuffix) with
    | nil =>
      exfalso
      have hmem := self_mem_suffixOccurrences s.data
      rw [hocc] at hmem
      exact absurd hmem (List.not_mem_nil _)
    | cons q0 rest =>
      show some (String.mk (subdomainSlice (s.data ++ dynSuffix) q0 rest))
        = some s
      rw [roundtrip_core s.data hnl q0 rest hocc]
  · intro t hnc
    cases hocc : suffixOccurrences t.data with
    | nil =>
      unfold get_dyndns_subdomain
      rw [hocc]
    | cons q0 rest =>
      exfalso
      apply hnc
      have hq0 : q0 ∈ suffixOccurrences t.data := by
        rw [hocc]
        exact List.mem_cons_self _ _
      obtain ⟨_, hpre⟩ := (mem_suffixOccurrences_iff _ _).mp hq0
      obtain ⟨b, hb⟩ := (isPrefixOf_iff_exists _ _).mp hpre
      show ∃ a b2 : List Char,
        t.data = a ++ (".dyn.peachcloud.org" : String).data ++ b2
      refine ⟨t.data.take q0, b, ?_⟩
      conv_lhs => rw [← List.take_append_drop q0 t.data]
      rw [hb]
      simp [dynSuffix, List.append_assoc]

/-- Witness for C10 amended: round trip at "peach", and `None` at
"example.com" (which contains no occurrence of the suffix literal). -/
theorem C10_roundtrip_amended_witness :
    get_dyndns_subdomain (get_full_dynamic_domain "peach") = some "peach"
    ∧ get_dyndns_subdomain "example.com" = none := by
  constructor
  · exact C10_roundtrip_amended.1 "peach" (by decide)
  · refine C10_roundtrip_amended.2 "example.com" ?_
    rintro ⟨a, b, hab⟩
    exact absurd ((listContainsB_iff _ _).mpr ⟨a, b, hab⟩) (by decide)
